import Mathlib

/-!
Verification of the region-hierarchy aggregation engine of ssb-kostra-python
(`regionshierarki.py`, `hjelpefunksjoner.py`, `avrunding.py`) against its
natural-language specification.  Tables are modelled as lists of rows of
values (strings or integers, the two cell types the aggregation pipeline
manipulates); the external classification registry (KLASS) is modelled as an
abstract snapshot of the code lists and correspondence tables the mapping
builders fetch for the requested year.
-/

namespace SsbKostra

/-- A cell value of a table: pandas object/string cells and integer cells,
the two kinds the hierarchy pipeline manipulates. -/
inductive Val where
  | vstr (s : String)
  | vint (n : Int)
deriving DecidableEq, Repr

/-- Python `str(x)` / pandas `astype(str)` on a single cell. -/
def valToText : Val → String
  | .vstr s => s
  | .vint n => toString n

/-- Cast a cell to its text form, as `astype(str)` / `astype("string")` does. -/
def toStrVal (v : Val) : Val := .vstr (valToText v)

/-- A pandas DataFrame: named columns and positional rows. -/
structure DataFrame where
  cols : List String
  rows : List (List Val)
deriving DecidableEq, Repr

/-- Decidable equality of run results, for evaluating the pipeline on
concrete inputs. -/
instance : DecidableEq (Except String DataFrame) := fun a b =>
  match a, b with
  | .ok x, .ok y =>
      if h : x = y then .isTrue (congrArg Except.ok h)
      else .isFalse (fun he => h (Except.ok.inj he))
  | .error x, .error y =>
      if h : x = y then .isTrue (congrArg Except.error h)
      else .isFalse (fun he => h (Except.error.inj he))
  | .ok _, .error _ => .isFalse (fun he => Except.noConfusion he)
  | .error _, .ok _ => .isFalse (fun he => Except.noConfusion he)

/-- Cell of a row at a column index (rows are well-formed in every reachable
call, so the default is never consulted there). -/
def getCell (r : List Val) (i : Nat) : Val := r.getD i (.vstr "")

/-- The values of column `c`, in row order. -/
def colValues (df : DataFrame) (c : String) : List Val :=
  df.rows.map (fun r => getCell r (df.cols.indexOf c))

/-- First-occurrence deduplication with an explicit seen-set, as the `uniq`
helper inside `definere_klassifikasjonsvariable` does. -/
def uniqAux {α : Type} [DecidableEq α] : List α → List α → List α
  | [], _ => []
  | x :: xs, seen =>
      if seen.contains x then uniqAux xs seen else x :: uniqAux xs (x :: seen)

/-- Deduplicate keeping the first occurrence of each element. -/
def uniqList {α : Type} [DecidableEq α] (l : List α) : List α := uniqAux l []

/-- pandas `Series.nunique()`: the number of distinct values of a column. -/
def nuniqueCol (df : DataFrame) (c : String) : Nat :=
  (uniqList (colValues df c)).length

/-- The first value of a column, `series.unique()[0]` on a nonempty frame. -/
def firstCell (df : DataFrame) (c : String) : Option Val :=
  (colValues df c).head?

/-- `df.copy()`: an independent copy of the frame (structural copy in the
pure model; the point is that it shares no mutable state with the input). -/
def copyFrame (df : DataFrame) : DataFrame := ⟨df.cols, df.rows⟩

/-- Overwrite column `c` cellwise with `f`, the model of
`df[c] = df[c].map-like-transformation`. -/
def mapColVals (df : DataFrame) (c : String) (f : Val → Val) : DataFrame :=
  let i := df.cols.indexOf c
  ⟨df.cols, df.rows.map (fun r => r.set i (f (getCell r i)))⟩

/-- Python `str.zfill(width)` on the character list: left-pad with zeros to
`width`, keeping a leading sign in front of the padding. -/
def zfillList (w : Nat) (l : List Char) : List Char :=
  if w ≤ l.length then l
  else
    match l with
    | c :: rest =>
        if c = '-' ∨ c = '+' then
          c :: (List.replicate (w - l.length) '0' ++ rest)
        else List.replicate (w - l.length) '0' ++ l
    | [] => List.replicate w '0'

/-- Python `str.zfill(width)`. -/
def zfill (w : Nat) (s : String) : String := String.mk (zfillList w s.data)

/- ### `hjelpefunksjoner.definere_klassifikasjonsvariable` -/

/-- The reserved identifier columns, in their fixed priority order
(`alltid_faste_klassifikasjonsvariable` in the source). -/
def alltid_faste_klassifikasjonsvariable : List String :=
  ["periode", "kommuneregion", "fylkesregion", "bydelsregion"]

/-- The reserved identifier columns present in the table, priority order kept. -/
def felles_klassifikasjonsvariable (cols : List String) : List String :=
  alltid_faste_klassifikasjonsvariable.filter (fun c => cols.contains c)

/-- Python `str.strip()` on the character list: drop whitespace from both
ends. -/
def stripList (l : List Char) : List Char :=
  ((l.dropWhile Char.isWhitespace).reverse.dropWhile Char.isWhitespace).reverse

/-- Python `str.split(",")` on the character list: split at every comma
(an empty string yields one empty field). -/
def splitCommaList : List Char → List (List Char)
  | [] => [[]]
  | c :: rest =>
      match splitCommaList rest with
      | [] => [[]]
      | w :: ws => if c = ',' then [] :: w :: ws else (c :: w) :: ws

/-- Python `s.endswith(t)`: `t` is a suffix of `s`. -/
def strEndsWith (s t : String) : Bool :=
  List.isPrefixOf t.data.reverse s.data.reverse

/-- Parse the console answer: split on commas, strip whitespace, drop empties
(`[var.strip() for var in answer.split(",") if var.strip()]`). -/
def parseAnswer (answer : String) : List String :=
  ((splitCommaList answer.data).map (fun w => String.mk (stripList w))).filter
    (fun s => s != "")

/-- The classification variables: reserved-present followed by the parsed
user answer, deduplicated keeping first occurrences. -/
def klassVars (cols : List String) (answer : String) : List String :=
  uniqList (felles_klassifikasjonsvariable cols ++ parseAnswer answer)

/-- The statistical variables: the remaining columns in original order. -/
def statVars (cols : List String) (answer : String) : List String :=
  cols.filter (fun c => !(klassVars cols answer).contains c)

/-- Cast the cells of the columns named in `ks` to text, cellwise over a row
paired with the column names. -/
def castRowCols (cols ks : List String) (r : List Val) : List Val :=
  (cols.zip r).map (fun p => if ks.contains p.1 then toStrVal p.2 else p.2)

/-- `df[ks] = df[ks].astype("string")`: cast the listed columns to text. -/
def castColsToStr (df : DataFrame) (ks : List String) : DataFrame :=
  ⟨df.cols, df.rows.map (castRowCols df.cols ks)⟩

/-- `definere_klassifikasjonsvariable(inputfil)` with the console prompt
abstracted to the answer string `answer`: returns the classification and
statistical variable lists and the table after the in-place
`astype("string")` side effect on the classification columns.  pandas raises
`KeyError` when the selection `inputfil[klassifikasjonsvariable]` names a
column the table does not have. -/
def definere_klassifikasjonsvariable (df : DataFrame) (answer : String) :
    Except String (List String × List String × DataFrame) :=
  let kv := klassVars df.cols answer
  let sv := statVars df.cols answer
  if ∀ c ∈ kv, c ∈ df.cols then
    .ok (kv, sv, castColsToStr df kv)
  else
    .error "KeyError: columns not in index"

/- ### The external classification registry (KLASS), abstracted

The mapping builders call `KlassCorrespondence` / `KlassClassification` for
the requested year.  A `Registry` is the snapshot of those responses for
that year: each correspondence table as its `(sourceCode, targetCode)` pairs
and each code list as its pivoted `code_1` column. -/

structure Registry where
  /-- Correspondence 131 (kommune) → 104 (fylke). -/
  kommFylkKorr : List (String × String)
  /-- Correspondence 131 (kommune) → 112 (KOSTRA-gruppe). -/
  kommKostraKorr : List (String × String)
  /-- Code list of classification 131 (kommuner), pivoted `code_1`. -/
  kommuner : List String
  /-- Correspondence 131 (kommune) → 127 (fylkeskommune). -/
  kommFylkeskommKorr : List (String × String)
  /-- Correspondence 127 (fylkeskommune) → 152 (KOSTRA-region). -/
  fylkeskommKostraKorr : List (String × String)
  /-- Code list of classification 127 (fylkeskommuner), pivoted `code_1`. -/
  fylkeskommuner : List String
  /-- Code list of classification 241 (bydeler i Oslo), pivoted `code_1`. -/
  bydeler : List String
deriving DecidableEq, Repr

/- ### The four mapping builders of `regionshierarki.py` -/

/-- `mapping_bydeler_oslo`: drop the two non-service borough codes and the
aggregate code itself, map every remaining borough to the constant "EAB". -/
def mapping_bydeler_oslo (reg : Registry) : List (String × String) :=
  (reg.bydeler.filter
      (fun c => !(c == "030116" || c == "030117" || c == "EAB"))).map
    (fun c => (c, "EAB"))

/-- `mapping_fra_kommune_til_landet`: concatenation of the county derivation
("EKA" + first two digits of the fylke code), the kommune → KOSTRA-group
correspondence, the land-wide "EAK" rows and the land-wide-excluding-Oslo
"EAKUO" rows, with the sentinel "9999" excluded from each source and the
`from` column zero-padded to width 4 at the end. -/
def mapping_fra_kommune_til_landet (reg : Registry) : List (String × String) :=
  let komm_fylk :=
    (reg.kommFylkKorr.filter (fun p => p.1 != "9999")).map
      (fun p => (p.1, "EKA" ++ p.2.take 2))
  let komm_kostra := reg.kommKostraKorr.filter (fun p => p.1 != "9999")
  let landet :=
    (reg.kommuner.filter (fun c => c != "9999")).map (fun c => (c, "EAK"))
  let landet_u_oslo :=
    (reg.kommuner.filter (fun c => !(c == "0301" || c == "9999"))).map
      (fun c => (c, "EAKUO"))
  ((komm_fylk ++ komm_kostra) ++ landet ++ landet_u_oslo).map
    (fun p => (zfill 4 p.1, p.2))

/-- `mapping_fra_kommune_til_fylkeskommune`: the 131 → 127 correspondence
with the sentinel "9999" excluded and both columns zero-padded to width 4. -/
def mapping_fra_kommune_til_fylkeskommune (reg : Registry) :
    List (String × String) :=
  (reg.kommFylkeskommKorr.filter (fun p => p.1 != "9999")).map
    (fun p => (zfill 4 p.1, zfill 4 p.2))

/-- `mapping_fra_fylkeskommune_til_kostraregion`: the 127 → 152
correspondence (unfiltered, unpadded) plus synthetic "EAFK" rows (all codes
except the sentinel "9900") and "EAFKUO" rows (all codes except "0300" and
"9900"). -/
def mapping_fra_fylkeskommune_til_kostraregion (reg : Registry) :
    List (String × String) :=
  let korr := reg.fylkeskommKostraKorr
  let landet :=
    (reg.fylkeskommuner.filter (fun c => c != "9900")).map
      (fun c => (c, "EAFK"))
  let landet_u_oslo :=
    (reg.fylkeskommuner.filter (fun c => !(c == "0300" || c == "9900"))).map
      (fun c => (c, "EAFKUO"))
  korr ++ landet ++ landet_u_oslo

/- ### `_select_mapping` -/

/-- Render a list of strings the way a Python f-string renders a list,
`['a', 'b']`, as the error messages of `_select_mapping` and
`_validate_and_normalize_region_col` do. -/
def renderPyList (l : List String) : String :=
  "[" ++ String.intercalate ", " (l.map (fun s => "'" ++ s ++ "'")) ++ "]"

/-- The aggregation types allowed for each region column
(`valid_by_region`); an unknown region column allows nothing. -/
def valid_by_region (rc : String) : List String :=
  if rc = "kommuneregion" then ["kommune_til_landet", "kommune_til_fylkeskommune"]
  else if rc = "fylkesregion" then ["fylkeskommune_til_kostraregion"]
  else if rc = "bydelsregion" then ["bydeler_til_EAB"]
  else []

/-- The aggregation type after the default-filling step of
`_select_mapping`: the caller's override when supplied, otherwise the type
the region column determines. -/
def resolveAggType (aggregeringstype : Option String) (rc : String) : String :=
  match aggregeringstype with
  | some a => a
  | none =>
      if rc = "kommuneregion" then "kommune_til_landet"
      else if rc = "fylkesregion" then "fylkeskommune_til_kostraregion"
      else "bydeler_til_EAB"

/-- The message of the "Inkonsekvent valg" error raised when the resolved
aggregation type is not allowed for the detected region column; Python
renders `sorted(allowed)`. -/
def inkonsekventMsg (aggtype rc : String) : String :=
  "Inkonsekvent valg: aggregeringstype='" ++ aggtype ++
    "' passer ikke med regionkolonne '" ++ rc ++ "'. Tillatte valg for " ++
    rc ++ ": " ++
    renderPyList (List.insertionSort (fun a b : String => a ≤ b)
      (valid_by_region rc)) ++ "."

/-- The message of the final "Ukjent aggregeringstype" raise of
`_select_mapping` (shown below to be unreachable from `hierarki`). -/
def ukjentMsg (aggtype : String) : String :=
  "Ukjent aggregeringstype: " ++ aggtype ++
    ". Gyldige: 'kommune_til_landet', 'kommune_til_fylkeskommune', " ++
    "'fylkeskommune_til_kostraregion', 'bydeler_til_EAB'."

/-- The post-merge filter of the `kommune_til_fylkeskommune` branch:
`df[df["kommuneregion"].str.endswith("00")]`.  A non-string cell is dropped,
as the pandas `.str` accessor yields NaN there. -/
def post_filter_kommuner_til_fylke (df : DataFrame) : DataFrame :=
  let i := df.cols.indexOf "kommuneregion"
  ⟨df.cols, df.rows.filter (fun r =>
    match getCell r i with
    | .vstr s => strEndsWith s "00"
    | .vint _ => false)⟩

/-- `_select_mapping(aggregeringstype, region_col, periode)`: the mapping
table, the join column, the column to overwrite, the optional post-merge
filter and the column renames.  The registry snapshot stands for the
mapping builders' year argument. -/
def _select_mapping (reg : Registry) (aggregeringstype : Option String)
    (rc : String) :
    Except String (List (String × String) × String × String ×
      Option (DataFrame → DataFrame) × List (String × String)) :=
  let at0 := resolveAggType aggregeringstype rc
  if at0 ∉ valid_by_region rc then
    .error (inkonsekventMsg at0 rc)
  else if at0 = "kommune_til_landet" then
    .ok (mapping_fra_kommune_til_landet reg, "kommuneregion", "kommuneregion",
      none, [])
  else if at0 = "kommune_til_fylkeskommune" then
    .ok (mapping_fra_kommune_til_fylkeskommune reg, "kommuneregion",
      "kommuneregion", some post_filter_kommuner_til_fylke,
      [("kommuneregion", "fylkesregion")])
  else if at0 = "fylkeskommune_til_kostraregion" then
    .ok (mapping_fra_fylkeskommune_til_kostraregion reg, "fylkesregion",
      "fylkesregion", none, [])
  else if at0 = "bydeler_til_EAB" then
    .ok (mapping_bydeler_oslo reg, "bydelsregion", "bydelsregion", none, [])
  else
    .error (ukjentMsg at0)

/- ### `_validate_and_normalize_region_col` and the merge/aggregate steps -/

/-- The region columns present in the table, in the fixed probe order of
`_validate_and_normalize_region_col`. -/
def regionColsOf (df : DataFrame) : List String :=
  ["kommuneregion", "fylkesregion", "bydelsregion"].filter
    (fun c => df.cols.contains c)

/-- The canonical zero-padding width of each region column. -/
def regionWidth (rc : String) : Nat := if rc = "bydelsregion" then 6 else 4

/-- Message raised when no region column is present. -/
def ingenRegionMsg : String :=
  "Fant ingen gyldig regionkolonne ('kommuneregion', 'fylkesregion', 'bydelsregion'). Datasettet ditt må inneholde minst én."

/-- Message raised when several region columns are present, naming them. -/
def flereRegionMsg (found : List String) : String :=
  "Fant flere regionskolonner " ++ renderPyList found ++ ". Det skal være nøyaktig én."

/-- `_validate_and_normalize_region_col(df)`: require exactly one region
column, cast it to text and zero-pad it to its canonical width
unconditionally. -/
def _validate_and_normalize_region_col (df : DataFrame) :
    Except String (String × DataFrame) :=
  match regionColsOf df with
  | [] => .error ingenRegionMsg
  | [rc] =>
      .ok (rc, mapColVals df rc (fun v => .vstr (zfill (regionWidth rc) (valToText v))))
  | _ :: _ :: _ => .error (flereRegionMsg (regionColsOf df))

/-- Inner merge of a table against a `from`/`to` mapping on `joinCol`
(`df.merge(mapping, left_on=joinCol, right_on="from", how="inner")`): one
output row per matching (table row, mapping row) pair, left row order kept,
the mapping's two columns appended.  Faithful when the table has no column
named `from` or `to` (pandas would suffix-rename on a collision; `hierarki`
is only applied to observation tables without those columns). -/
def mergeInner (df : DataFrame) (joinCol : String)
    (mapping : List (String × String)) : DataFrame :=
  let i := df.cols.indexOf joinCol
  ⟨df.cols ++ ["from", "to"],
    df.rows.flatMap (fun r =>
      (mapping.filter (fun p => getCell r i == .vstr p.1)).map
        (fun p => r ++ [.vstr p.1, .vstr p.2]))⟩

/-- `df[dst] = df[src]`: overwrite column `dst` with column `src` rowwise. -/
def setColFrom (df : DataFrame) (dst src : String) : DataFrame :=
  let i := df.cols.indexOf dst
  let j := df.cols.indexOf src
  ⟨df.cols, df.rows.map (fun r => r.set i (getCell r j))⟩

/-- The grouping key of a row: its cells at the classification columns. -/
def keyOf (cols kv : List String) (r : List Val) : List Val :=
  kv.map (fun c => getCell r (cols.indexOf c))

/-- Cell addition as pandas `sum()` performs it per group: integer addition
on numeric cells, concatenation on object/string cells.  A mixed-type sum
raises in pandas and is unreachable for well-typed columns. -/
def addVal : Val → Val → Val
  | .vint a, .vint b => .vint (a + b)
  | .vstr a, .vstr b => .vstr (a ++ b)
  | a, _ => a

/-- Sum of the cells of one statistical column within one group. -/
def sumVals : List Val → Val
  | [] => .vint 0
  | v :: vs => vs.foldl addVal v

/-- Lexicographic (code-point) order on character lists, the order Python
and pandas use to compare strings. -/
def strLtListB : List Char → List Char → Bool
  | [], [] => false
  | [], _ :: _ => true
  | _ :: _, [] => false
  | a :: as, b :: bs => if a = b then strLtListB as bs else a.toNat < b.toNat

/-- `a <= b` on strings, by code points. -/
def strLeB (a b : String) : Bool := a == b || strLtListB a.data b.data

/-- Boolean order on cells used to model pandas' sorting of group keys
(numeric before string; keys of one groupby share a type per column). -/
def valLeB : Val → Val → Bool
  | .vint a, .vint b => a ≤ b
  | .vstr a, .vstr b => strLeB a b
  | .vint _, .vstr _ => true
  | .vstr _, .vint _ => false

/-- Lexicographic order on grouping keys. -/
def keyLeB : List Val → List Val → Bool
  | [], _ => true
  | _ :: _, [] => false
  | a :: as, b :: bs => if a = b then keyLeB as bs else valLeB a b

/-- Insertion into a sorted list under a Boolean order. -/
def orderedInsertB {α : Type} (le : α → α → Bool) (a : α) :
    List α → List α
  | [] => [a]
  | b :: l => if le a b then a :: b :: l else b :: orderedInsertB le a l

/-- Insertion sort under a Boolean order, modelling pandas' sorting of
group keys (`groupby(..., sort=True)`). -/
def insertionSortB {α : Type} (le : α → α → Bool) : List α → List α
  | [] => []
  | b :: l => orderedInsertB le b (insertionSortB le l)

/-- `df.groupby(kv, as_index=False, observed=True)[sv].sum()`: one row per
distinct key combination, keys sorted (pandas' default `sort=True`), key
columns followed by the summed statistical columns. -/
def groupbySum (df : DataFrame) (kv sv : List String) : DataFrame :=
  let keys := uniqList (df.rows.map (keyOf df.cols kv))
  let sorted := insertionSortB keyLeB keys
  ⟨kv ++ sv,
    sorted.map (fun k =>
      let grp := df.rows.filter (fun r => keyOf df.cols kv r == k)
      k ++ sv.map (fun c =>
        sumVals (grp.map (fun r => getCell r (df.cols.indexOf c)))))⟩

/-- Realign a row from one column order to another, by column name. -/
def alignRow (srcCols tgtCols : List String) (r : List Val) : List Val :=
  tgtCols.map (fun c => getCell r (srcCols.indexOf c))

/-- `pd.concat([a, b], ignore_index=True)` in the case `hierarki` exercises,
where the columns of `b` are a permutation of the columns of `a`: the rows
of `b` are realigned to the column order of `a`. -/
def concatFrames (a b : DataFrame) : DataFrame :=
  ⟨a.cols, a.rows ++ b.rows.map (alignRow b.cols a.cols)⟩

/-- Rename columns by the rename map (`df.rename(columns=...)`). -/
def renameCols (df : DataFrame) (renames : List (String × String)) : DataFrame :=
  ⟨df.cols.map (fun c =>
      match renames.find? (fun p => p.1 == c) with
      | some p => p.2
      | none => c),
    df.rows⟩

/-- `_postprocess_combined(df, post_filter, rename_cols, klassifikasjonsvariable)`:
cast the classification columns of the COMBINED table to text, apply the
optional post-merge filter to it, apply the renames, reset the index. -/
def _postprocess_combined (df : DataFrame)
    (post_filter : Option (DataFrame → DataFrame))
    (rename_cols : List (String × String)) (kv : List String) : DataFrame :=
  let df := castColsToStr df kv
  let df := match post_filter with
    | some f => f df
    | none => df
  renameCols df rename_cols

/- ### `hierarki` -/

/-- Message of the too-many-periods check. -/
def merEnn1PeriodeMsg : String := "Mer enn 1 periode i datasettet"

/-- The statements of `hierarki` from the `_select_mapping` call on, applied
to the normalized working copy `c2` with detected region column `rc`: merge
against the mapping, resolve the classification variables (mutating the
copy), overwrite the region column with the parent code, group and sum,
concatenate and post-process. -/
def hierarkiStage2 (reg : Registry) (answer : String)
    (aggregeringstype : Option String) (c2 : DataFrame) (rc : String) :
    Except String DataFrame :=
  match _select_mapping reg aggregeringstype rc with
  | .error e => .error e
  | .ok (mapping, joinCol, replaceCol, post_filter, rename_cols) =>
      let merged0 := mergeInner c2 joinCol mapping
      match definere_klassifikasjonsvariable c2 answer with
      | .error e => .error e
      | .ok (kv, sv, c3) =>
        let merged := setColFrom merged0 replaceCol "to"
        let agg := groupbySum merged kv sv
        .ok (_postprocess_combined (concatFrames c3 agg) post_filter
          rename_cols kv)

/-- `hierarki(inputfil, aggregeringstype)` applied to the working copy:
every statement of the source body from the period check on, with the
console prompt abstracted to `answer` and the registry to `reg`. -/
def hierarkiFromCopy (reg : Registry) (answer : String)
    (aggregeringstype : Option String) (inputfil_copy : DataFrame) :
    Except String DataFrame :=
  if "periode" ∉ inputfil_copy.cols then
    .error "KeyError: periode"
  else if 1 < nuniqueCol inputfil_copy "periode" then
    .error merEnn1PeriodeMsg
  else
    let c1 := mapColVals inputfil_copy "periode" toStrVal
    match firstCell c1 "periode" with
    | none => .error "IndexError: index 0 is out of bounds"
    | some _ =>
      match _validate_and_normalize_region_col c1 with
      | .error e => .error e
      | .ok (rc, c2) => hierarkiStage2 reg answer aggregeringstype c2 rc

/-- `hierarki` together with the final state of the caller's frame object:
the source copies the input (`inputfil_copy = inputfil.copy()`) and every
subsequent statement targets the copy, so the caller's object is returned
as it was. -/
def hierarkiWithCaller (reg : Registry) (answer : String)
    (inputfil : DataFrame) (aggregeringstype : Option String) :
    Except String DataFrame × DataFrame :=
  let inputfil_copy := copyFrame inputfil
  (hierarkiFromCopy reg answer aggregeringstype inputfil_copy, inputfil)

/-- `hierarki(inputfil, aggregeringstype)`: the returned table. -/
def hierarki (reg : Registry) (answer : String) (inputfil : DataFrame)
    (aggregeringstype : Option String) : Except String DataFrame :=
  (hierarkiWithCaller reg answer inputfil aggregeringstype).1

/- ### `avrunding._round_half_up`, in exact (rational) arithmetic -/

/-- `np.sign` on a rational value. -/
def sgn (q : ℚ) : ℚ := if 0 < q then 1 else if q < 0 then -1 else 0

/-- `_round_half_up(values, decimals)` on one value, in exact arithmetic:
`np.sign(v) * np.floor(np.abs(v) * factor + 0.5) / factor`. -/
def _round_half_up (v : ℚ) (decimals : Nat) : ℚ :=
  let factor : ℚ := 10 ^ decimals
  sgn v * (⌊|v| * factor + 1 / 2⌋ : ℤ) / factor

/- ### Derived views of the `hierarki` pipeline, named for the theorems -/

/-- The working copy after the period text-cast and the region
normalization (text-cast plus unconditional zero-padding), the state the
source calls `inputfil_copy` right before the merge. -/
def hierarkiNormCopy (df : DataFrame) (rc : String) : DataFrame :=
  mapColVals (mapColVals df "periode" toStrVal) rc
    (fun v => .vstr (zfill (regionWidth rc) (valToText v)))

/-- The original rows as they stand in the concatenation step: normalized
and with the classification columns cast to text by the
`definere_klassifikasjonsvariable` side effect. -/
def hierarkiOriginals (df : DataFrame) (rc : String) (answer : String) :
    DataFrame :=
  castColsToStr (hierarkiNormCopy df rc) (klassVars df.cols answer)

/-- The merged frame the aggregation groups over: the inner join of the
normalized copy against the mapping, region column overwritten with the
mapping's parent code. -/
def hierarkiMerged (df : DataFrame) (rc : String) (joinCol replaceCol : String)
    (mapping : List (String × String)) : DataFrame :=
  setColFrom (mergeInner (hierarkiNormCopy df rc) joinCol mapping)
    replaceCol "to"

/-- The number of distinct classification-key combinations of a frame. -/
def distinctKeyCount (df : DataFrame) (kv : List String) : Nat :=
  (uniqList (df.rows.map (keyOf df.cols kv))).length

/- ### Basic lemmas about the model -/

theorem copyFrame_eq (df : DataFrame) : copyFrame df = df := rfl

theorem cols_mapColVals (df : DataFrame) (c : String) (f : Val → Val) :
    (mapColVals df c f).cols = df.cols := rfl

theorem regionColsOf_mapColVals (df : DataFrame) (c : String) (f : Val → Val) :
    regionColsOf (mapColVals df c f) = regionColsOf df := rfl

theorem toStrVal_idem (v : Val) : toStrVal (toStrVal v) = toStrVal v := by
  cases v <;> rfl

theorem castRowCols_cons (c : String) (cs ks : List String) (x : Val)
    (xs : List Val) :
    castRowCols (c :: cs) ks (x :: xs) =
      (if ks.contains c then toStrVal x else x) :: castRowCols cs ks xs := rfl

theorem castRowCols_idem (cols ks : List String) (r : List Val) :
    castRowCols cols ks (castRowCols cols ks r) = castRowCols cols ks r := by
  induction cols generalizing r with
  | nil => rfl
  | cons c cs ih =>
    cases r with
    | nil => rfl
    | cons x xs =>
      rw [castRowCols_cons, castRowCols_cons, ih]
      cases hc : ks.contains c <;> simp [hc, toStrVal_idem]

theorem mem_uniqAux {α : Type} [DecidableEq α] {x : α} :
    ∀ {l seen : List α}, x ∈ uniqAux l seen → x ∈ l := by
  intro l
  induction l with
  | nil => intro seen h; simp [uniqAux] at h
  | cons a as ih =>
    intro seen h
    rw [uniqAux] at h
    by_cases hc : seen.contains a
    · simp only [hc, if_pos] at h
      exact List.mem_cons_of_mem _ (ih h)
    · simp only [hc, if_neg, Bool.false_eq_true, not_false_iff] at h
      rcases List.mem_cons.mp h with h1 | h2
      · exact h1 ▸ List.mem_cons_self _ _
      · exact List.mem_cons_of_mem _ (ih h2)

theorem mem_uniqList {α : Type} [DecidableEq α] {x : α} {l : List α}
    (h : x ∈ uniqList l) : x ∈ l := mem_uniqAux h

theorem mem_klassVars {cols : List String} {answer : String} {c : String}
    (h : c ∈ klassVars cols answer) :
    c ∈ felles_klassifikasjonsvariable cols ∨ c ∈ parseAnswer answer := by
  exact List.mem_append.mp (mem_uniqList h)

theorem klassVars_subset_cols {cols : List String} {answer : String}
    (hans : ∀ x ∈ parseAnswer answer, x ∈ cols) :
    ∀ c ∈ klassVars cols answer, c ∈ cols := by
  intro c hc
  rcases mem_klassVars hc with h1 | h2
  · have h3 := List.of_mem_filter h1
    exact List.elem_iff.mp (by simpa [List.contains] using h3)
  · exact hans c h2

/-- The validation prefix of `hierarki`: once the period guards pass on a
nonempty table, the run continues with the result of
`_validate_and_normalize_region_col` on the period-cast copy. -/
theorem hierarki_unfold_to_validate (reg : Registry) (answer : String)
    (df : DataFrame) (aggregeringstype : Option String)
    (hper : "periode" ∈ df.cols)
    (hnu : ¬ 1 < nuniqueCol df "periode")
    (hne : df.rows ≠ []) :
    hierarki reg answer df aggregeringstype =
      match _validate_and_normalize_region_col
          (mapColVals df "periode" toStrVal) with
      | .error e => .error e
      | .ok (rc, c2) => hierarkiStage2 reg answer aggregeringstype c2 rc := by
  obtain ⟨r, rs, hrows⟩ := List.exists_cons_of_ne_nil hne
  simp only [hierarki, hierarkiWithCaller, hierarkiFromCopy, copyFrame_eq]
  rw [if_neg (not_not_intro hper), if_neg hnu]
  rcases h1 : firstCell (mapColVals df "periode" toStrVal) "periode" with _ | v
  · exfalso
    rw [firstCell, colValues] at h1
    simp [mapColVals, hrows] at h1
  · rfl

/-- With the period guards passed, a nonempty table and exactly one region
column, the run reaches `_select_mapping` with the normalized copy. -/
theorem hierarki_run (reg : Registry) (answer : String) (df : DataFrame)
    (aggregeringstype : Option String) (rc : String)
    (hper : "periode" ∈ df.cols)
    (hnu : ¬ 1 < nuniqueCol df "periode")
    (hne : df.rows ≠ [])
    (hrc : regionColsOf df = [rc]) :
    hierarki reg answer df aggregeringstype =
      hierarkiStage2 reg answer aggregeringstype (hierarkiNormCopy df rc) rc := by
  rw [hierarki_unfold_to_validate reg answer df aggregeringstype hper hnu hne]
  simp only [_validate_and_normalize_region_col, regionColsOf_mapColVals, hrc]
  rfl

/-- The region column detected for a single-region-column table is one of
the three probe names. -/
theorem regionCol_mem_probe {df : DataFrame} {rc : String}
    (hrc : regionColsOf df = [rc]) :
    rc = "kommuneregion" ∨ rc = "fylkesregion" ∨ rc = "bydelsregion" := by
  have h1 : rc ∈ regionColsOf df := by
    rw [hrc]; exact List.mem_singleton_self rc
  have h2 := List.mem_of_mem_filter h1
  simpa using h2

/- ### Concrete fixtures for witnesses and counterexamples -/

/-- An empty registry snapshot (the mapping builders then return empty
mapping tables). -/
def regEmpty : Registry := ⟨[], [], [], [], [], [], []⟩

/-- Registry snapshot used by the repository's own
`kommune_til_fylkeskommune` test: 0301 → 0300 and 5001 → 5000. -/
def regFylkeskomm : Registry :=
  { regEmpty with kommFylkeskommKorr := [("0301", "0300"), ("5001", "5000")] }

/-- Registry snapshot of the spec's end-to-end scenario: the single
municipality 0301, so the municipality-to-nation mapping holds the row
(0301, "EAK") and no "EAKUO" row. -/
def regOslo : Registry := { regEmpty with kommuner := ["0301"] }

/-- The two-row municipality table of the spec's end-to-end scenario. -/
def dfOslo : DataFrame :=
  ⟨["periode", "kommuneregion", "personer"],
   [[.vstr "2025", .vstr "0301", .vint 10],
    [.vstr "2025", .vstr "0301", .vint 20]]⟩

/-- A municipality table whose two rows live in distinct municipalities. -/
def dfToKommuner : DataFrame :=
  ⟨["periode", "kommuneregion", "personer"],
   [[.vstr "2025", .vstr "0301", .vint 10],
    [.vstr "2025", .vstr "5001", .vint 20]]⟩

/-- A table whose period column holds the integer 2025 and the string
"2025": one period after the text cast, two before it. -/
def dfPeriodeMix : DataFrame :=
  ⟨["periode", "kommuneregion", "personer"],
   [[.vint 2025, .vstr "0301", .vint 10],
    [.vstr "2025", .vstr "0301", .vint 20]]⟩

/- ### Claim C9 -/

/-- C9: the commercial-rounding helper rounds exact halves away from zero
at the chosen decimal precision: 0.5 → 1, −0.5 → −1, 1.25 → 1.3 and
−1.25 → −1.3 at one decimal; in general a value `v` with
`|v| * 10^d + 0.5` an integer `n` rounds to `sign v * n / 10^d`, and a
value sitting exactly on a half (`|v| * 10^d = n + 1/2`) rounds to
`sign v * (n + 1) / 10^d`, away from zero. -/
theorem C9_round_half_away_from_zero :
    _round_half_up (1 / 2 : ℚ) 0 = 1 ∧
    _round_half_up (-(1 / 2) : ℚ) 0 = -1 ∧
    _round_half_up (5 / 4 : ℚ) 1 = 13 / 10 ∧
    _round_half_up (-(5 / 4) : ℚ) 1 = -(13 / 10) ∧
    (∀ (v : ℚ) (d : Nat) (n : ℤ), |v| * 10 ^ d + 1 / 2 = (n : ℚ) →
      _round_half_up v d = sgn v * (n : ℚ) / 10 ^ d) ∧
    (∀ (v : ℚ) (d : Nat) (n : ℕ), |v| * 10 ^ d = (n : ℚ) + 1 / 2 →
      _round_half_up v d = sgn v * ((n : ℚ) + 1) / 10 ^ d) := by
  have gen : ∀ (v : ℚ) (d : Nat) (n : ℤ), |v| * 10 ^ d + 1 / 2 = (n : ℚ) →
      _round_half_up v d = sgn v * (n : ℚ) / 10 ^ d := by
    intro v d n h
    simp only [_round_half_up]
    rw [h, Int.floor_intCast]
  have gen2 : ∀ (v : ℚ) (d : Nat) (n : ℕ), |v| * 10 ^ d = (n : ℚ) + 1 / 2 →
      _round_half_up v d = sgn v * ((n : ℚ) + 1) / 10 ^ d := by
    intro v d n h
    rw [gen v d (n + 1) (by push_cast; linarith)]
    push_cast
    ring
  refine ⟨?_, ?_, ?_, ?_, gen, gen2⟩
  · rw [gen (1 / 2) 0 1 (by rw [abs_of_pos] <;> norm_num)]; norm_num [sgn]
  · rw [gen (-(1 / 2)) 0 1 (by rw [abs_neg, abs_of_pos] <;> norm_num)]
    norm_num [sgn]
  · rw [gen (5 / 4) 1 13 (by rw [abs_of_pos] <;> norm_num)]; norm_num [sgn]
  · rw [gen (-(5 / 4)) 1 13 (by rw [abs_neg, abs_of_pos] <;> norm_num)]
    norm_num [sgn]

/-- Witness for C9: at the concrete half 3/2 with precision 0 the helper
produces 2, via the general away-from-zero clause at `n = 1`. -/
theorem C9_witness : _round_half_up (3 / 2 : ℚ) 0 = 2 := by
  have h := C9_round_half_away_from_zero.2.2.2.2.2 (3 / 2) 0 1 (by norm_num)
  rw [h]
  norm_num [sgn]

/- ### Claim C10 -/

/-- C10: a completed `hierarki` run leaves the caller's frame entirely
unchanged: the source works on `inputfil.copy()` and every subsequent
statement (period cast, region padding, the classification string-cast
side effect) targets the copy, so the caller's object is returned as it
was. -/
theorem C10_hierarki_preserves_caller_frame (reg : Registry)
    (answer : String) (df : DataFrame) (aggregeringstype : Option String) :
    (hierarkiWithCaller reg answer df aggregeringstype).2 = df := rfl

/- ### Claim C2 -/

/-- C2 (amended): the too-many-periods check compares the RAW period
values, before the text cast (`nunique` runs on the column as given, the
`astype(str)` follows it), so any table whose period column holds more
than one distinct raw value — including two representations of the same
year — raises the fatal "Mer enn 1 periode" error. -/
theorem C2_too_many_periods_raw_distinctness (reg : Registry)
    (answer : String) (df : DataFrame) (aggregeringstype : Option String)
    (hper : "periode" ∈ df.cols) (h2 : 1 < nuniqueCol df "periode") :
    hierarki reg answer df aggregeringstype = .error merEnn1PeriodeMsg := by
  simp only [hierarki, hierarkiWithCaller, hierarkiFromCopy, copyFrame_eq]
  rw [if_neg (not_not_intro hper), if_pos h2]

/-- Counterexample to C2 as stated: a period column holding the integer
2025 and the string "2025" has exactly one distinct text-cast value, yet
`hierarki` raises the "too many periods" error, because distinctness is
judged before the cast. -/
theorem C2_counterexample_mixed_representations :
    uniqList ((colValues dfPeriodeMix "periode").map valToText) = ["2025"] ∧
    nuniqueCol dfPeriodeMix "periode" = 2 ∧
    hierarki regEmpty "" dfPeriodeMix none = .error merEnn1PeriodeMsg := by
  refine ⟨by decide, by decide, ?_⟩
  rfl

/-- Witness for C2: a table with two distinct years raises the error. -/
theorem C2_witness :
    hierarki regEmpty ""
      ⟨["periode", "kommuneregion", "personer"],
       [[.vstr "2024", .vstr "0301", .vint 1],
        [.vstr "2025", .vstr "0301", .vint 2]]⟩ none =
      .error merEnn1PeriodeMsg := by
  exact C2_too_many_periods_raw_distinctness regEmpty "" _ none
    (by decide) (by decide)

/- ### Claim C3 -/

/-- C3 (amended): an aggregation-type override outside the four known
values raises a fatal error, but it is the "Inkonsekvent valg" error of
the allow-list check, naming the override, the detected region column and
the valid types for that column; the final "Ukjent aggregeringstype"
branch of `_select_mapping` is unreachable, because an unknown string is
never in the region column's allow-list. -/
theorem C3_unknown_aggtype_inkonsekvent_error (reg : Registry)
    (answer : String) (df : DataFrame) (aggtype rc : String)
    (hper : "periode" ∈ df.cols)
    (hnu : ¬ 1 < nuniqueCol df "periode")
    (hne : df.rows ≠ [])
    (hrc : regionColsOf df = [rc])
    (hunk : aggtype ∉ ["kommune_til_landet", "kommune_til_fylkeskommune",
      "fylkeskommune_til_kostraregion", "bydeler_til_EAB"]) :
    hierarki reg answer df (some aggtype) =
      .error (inkonsekventMsg aggtype rc) := by
  rw [hierarki_run reg answer df (some aggtype) rc hper hnu hne hrc]
  have hnotin : aggtype ∉ valid_by_region rc := by
    intro hmem
    apply hunk
    rcases regionCol_mem_probe hrc with h | h | h <;> subst h <;>
      simp [valid_by_region] at hmem <;>
      simp only [List.mem_cons, List.not_mem_nil, or_false] <;> tauto
  simp only [hierarkiStage2, _select_mapping, resolveAggType]
  rw [if_pos hnotin]

/-- Counterexample to C3 as stated: the override "tull" is unknown, and
`hierarki` raises the "Inkonsekvent valg" error, which differs from the
"Ukjent aggregeringstype" message the claim announces. -/
theorem C3_counterexample_unknown_aggtype_message :
    hierarki regFylkeskomm "" dfToKommuner (some "tull") =
      .error (inkonsekventMsg "tull" "kommuneregion") ∧
    inkonsekventMsg "tull" "kommuneregion" ≠ ukjentMsg "tull" := by
  exact ⟨rfl, by decide⟩

/-- Witness for C3: the unknown override "ukjent" on a municipality table
raises the inconsistent-choice error. -/
theorem C3_witness :
    hierarki regEmpty "" dfToKommuner (some "ukjent") =
      .error (inkonsekventMsg "ukjent" "kommuneregion") := by
  exact C3_unknown_aggtype_inkonsekvent_error regEmpty "" dfToKommuner
    "ukjent" "kommuneregion" (by decide) (by decide) (by decide) (by decide)
    (by decide)

/- ### Claim C4 -/

/-- C4: with no override the region column determines the aggregation type
(kommuneregion → kommune_til_landet, fylkesregion →
fylkeskommune_til_kostraregion, bydelsregion → bydeler_til_EAB); an
override must belong to the detected column's allow-list (kommuneregion
additionally allows kommune_til_fylkeskommune) and then selection
succeeds, and an override outside the allow-list raises the fatal
"Inkonsekvent valg" error naming the offending combination. -/
theorem C4_aggtype_resolution_allowlist (reg : Registry) (rc ov : String)
    (hrc : rc = "kommuneregion" ∨ rc = "fylkesregion" ∨ rc = "bydelsregion") :
    resolveAggType none "kommuneregion" = "kommune_til_landet" ∧
    resolveAggType none "fylkesregion" = "fylkeskommune_til_kostraregion" ∧
    resolveAggType none "bydelsregion" = "bydeler_til_EAB" ∧
    valid_by_region "kommuneregion" =
      ["kommune_til_landet", "kommune_til_fylkeskommune"] ∧
    valid_by_region "fylkesregion" = ["fylkeskommune_til_kostraregion"] ∧
    valid_by_region "bydelsregion" = ["bydeler_til_EAB"] ∧
    (ov ∈ valid_by_region rc →
      ∃ t, _select_mapping reg (some ov) rc = .ok t) ∧
    (ov ∉ valid_by_region rc →
      _select_mapping reg (some ov) rc = .error (inkonsekventMsg ov rc)) := by
  refine ⟨rfl, rfl, rfl, rfl, rfl, rfl, ?_, ?_⟩
  · intro hmem
    rcases hrc with h | h | h <;> subst h
    · rw [show valid_by_region "kommuneregion" =
          ["kommune_til_landet", "kommune_til_fylkeskommune"] from rfl] at hmem
      rcases List.mem_cons.mp hmem with h' | h'
      · subst h'; exact ⟨_, rfl⟩
      · rw [List.mem_singleton] at h'; subst h'; exact ⟨_, rfl⟩
    · rw [show valid_by_region "fylkesregion" =
          ["fylkeskommune_til_kostraregion"] from rfl,
        List.mem_singleton] at hmem
      subst hmem; exact ⟨_, rfl⟩
    · rw [show valid_by_region "bydelsregion" = ["bydeler_til_EAB"] from rfl,
        List.mem_singleton] at hmem
      subst hmem; exact ⟨_, rfl⟩
  · intro hnot
    simp only [_select_mapping, resolveAggType]
    rw [if_pos hnot]

/-- Witness for C4: the kommuneregion column accepts the
kommune_til_fylkeskommune override, and the kommune_til_landet override is
rejected on a fylkesregion column with the inconsistent-choice error. -/
theorem C4_witness :
    (∃ t, _select_mapping regEmpty (some "kommune_til_fylkeskommune")
      "kommuneregion" = .ok t) ∧
    _select_mapping regEmpty (some "kommune_til_landet") "fylkesregion" =
      .error (inkonsekventMsg "kommune_til_landet" "fylkesregion") := by
  constructor
  · exact (C4_aggtype_resolution_allowlist regEmpty "kommuneregion"
      "kommune_til_fylkeskommune" (Or.inl rfl)).2.2.2.2.2.2.1 (by decide)
  · exact (C4_aggtype_resolution_allowlist regEmpty "fylkesregion"
      "kommune_til_landet" (Or.inr (Or.inl rfl))).2.2.2.2.2.2.2 (by decide)

/- ### Claim C5 -/

/-- C5: `hierarki` requires exactly one of the three region columns: with
none present it raises the fatal no-region-column error, and with two or
more present it raises the fatal error naming the region columns found. -/
theorem C5_exactly_one_region_column (reg : Registry) (answer : String)
    (df : DataFrame) (aggregeringstype : Option String)
    (hper : "periode" ∈ df.cols)
    (hnu : ¬ 1 < nuniqueCol df "periode")
    (hne : df.rows ≠ []) :
    (regionColsOf df = [] →
      hierarki reg answer df aggregeringstype = .error ingenRegionMsg) ∧
    (2 ≤ (regionColsOf df).length →
      hierarki reg answer df aggregeringstype =
        .error (flereRegionMsg (regionColsOf df))) := by
  constructor
  · intro h0
    rw [hierarki_unfold_to_validate reg answer df aggregeringstype hper hnu hne]
    simp only [_validate_and_normalize_region_col, regionColsOf_mapColVals, h0]
  · intro h2
    rw [hierarki_unfold_to_validate reg answer df aggregeringstype hper hnu hne]
    rcases hr : regionColsOf df with _ | ⟨a, _ | ⟨b, t⟩⟩
    · rw [hr] at h2; simp at h2
    · rw [hr] at h2; simp at h2
    · simp only [_validate_and_normalize_region_col, regionColsOf_mapColVals,
        hr]

/-- Witness for C5: a table without any region column raises the
no-region-column error, and a table with both kommuneregion and
fylkesregion raises the several-region-columns error naming them. -/
theorem C5_witness :
    hierarki regEmpty ""
      ⟨["periode", "personer"], [[.vstr "2025", .vint 1]]⟩ none =
      .error ingenRegionMsg ∧
    hierarki regEmpty ""
      ⟨["periode", "kommuneregion", "fylkesregion", "personer"],
       [[.vstr "2025", .vstr "0301", .vstr "0300", .vint 1]]⟩ none =
      .error (flereRegionMsg ["kommuneregion", "fylkesregion"]) := by
  constructor
  · exact (C5_exactly_one_region_column regEmpty "" _ none (by decide)
      (by decide) (by decide)).1 (by decide)
  · have h := (C5_exactly_one_region_column regEmpty ""
      ⟨["periode", "kommuneregion", "fylkesregion", "personer"],
       [[.vstr "2025", .vstr "0301", .vstr "0300", .vint 1]]⟩ none
      (by decide) (by decide) (by decide)).2 (by decide)
    simpa using h

/- ### Claim C7 -/

/-- A one-row municipality table used by the counterexamples. -/
def dfEnkel : DataFrame :=
  ⟨["periode", "kommuneregion", "personer"],
   [[.vstr "2025", .vstr "0301", .vint 7]]⟩

/-- C7 (amended): provided every user-supplied name is a column of the
table, `definere_klassifikasjonsvariable` returns classification variables
equal to the reserved identifiers present (priority order periode,
kommuneregion, fylkesregion, bydelsregion) followed by the user-supplied
names, trimmed and deduplicated preserving first occurrence, and
statistical variables equal to the remaining table columns in original
order; an empty answer yields no extra classification variables.  (A
user-supplied name that is not a column makes the call raise instead of
return, so the claim's unrestricted quantifier over answers fails.) -/
theorem C7_definere_returns_partition (df : DataFrame) (answer : String)
    (hans : ∀ x ∈ parseAnswer answer, x ∈ df.cols) :
    definere_klassifikasjonsvariable df answer =
      .ok (uniqList (felles_klassifikasjonsvariable df.cols ++
          parseAnswer answer),
        df.cols.filter (fun c => !(klassVars df.cols answer).contains c),
        castColsToStr df (klassVars df.cols answer)) ∧
    parseAnswer "" = [] := by
  constructor
  · simp only [definere_klassifikasjonsvariable]
    rw [if_pos (klassVars_subset_cols hans)]
    rfl
  · rfl

/-- Counterexample to C7 as stated: the answer "alder" parses to a name
that is not a column of the table, and the call raises pandas' KeyError
instead of returning the partition. -/
theorem C7_counterexample_unknown_name_raises :
    parseAnswer "alder" = ["alder"] ∧
    definere_klassifikasjonsvariable dfEnkel "alder" =
      .error "KeyError: columns not in index" := ⟨rfl, rfl⟩

/-- Witness for C7: on a table with an `alder` column the answer "alder"
yields the reserved columns followed by `alder`, and `personer` as the
lone statistical variable. -/
theorem C7_witness :
    definere_klassifikasjonsvariable
        ⟨["periode", "kommuneregion", "alder", "personer"],
         [[.vstr "2025", .vstr "0301", .vstr "001", .vint 7]]⟩ "alder" =
      .ok (uniqList (felles_klassifikasjonsvariable
            ["periode", "kommuneregion", "alder", "personer"] ++
          parseAnswer "alder"),
        ["periode", "kommuneregion", "alder", "personer"].filter
          (fun c => !(klassVars
            ["periode", "kommuneregion", "alder", "personer"]
            "alder").contains c),
        castColsToStr
          ⟨["periode", "kommuneregion", "alder", "personer"],
           [[.vstr "2025", .vstr "0301", .vstr "001", .vint 7]]⟩
          (klassVars ["periode", "kommuneregion", "alder", "personer"]
            "alder")) ∧
    parseAnswer "" = [] := by
  exact C7_definere_returns_partition _ "alder" (by decide)

/- ### Claim C8 -/

theorem getCell_castRowCols (cols ks : List String) (r : List Val) (i : Nat)
    (h1 : i < cols.length) (h2 : i < r.length) :
    getCell (castRowCols cols ks r) i =
      (if ks.contains (cols.getD i "") then toStrVal (getCell r i)
       else getCell r i) := by
  induction cols generalizing r i with
  | nil => simp at h1
  | cons c cs ih =>
    cases r with
    | nil => simp at h2
    | cons x xs =>
      cases i with
      | zero => rw [castRowCols_cons]; rfl
      | succ n =>
        rw [castRowCols_cons]
        have e1 : getCell ((if ks.contains c then toStrVal x else x) ::
            castRowCols cs ks xs) (n + 1) =
            getCell (castRowCols cs ks xs) n := rfl
        have e2 : getCell (x :: xs) (n + 1) = getCell xs n := rfl
        have e3 : (c :: cs).getD (n + 1) "" = cs.getD n "" := rfl
        rw [e1, e2, e3]
        exact ih xs n (Nat.lt_of_succ_lt_succ h1) (Nat.lt_of_succ_lt_succ h2)

theorem contains_of_mem {l : List String} {c : String} (h : c ∈ l) :
    l.contains c = true := by
  simpa [List.contains] using List.elem_eq_true_of_mem h

/-- The column read off a casted frame, classification case: every cell is
text-cast. -/
theorem colValues_castColsToStr_mem (df : DataFrame) (ks : List String)
    (c : String) (hc : c ∈ ks) (hcol : c ∈ df.cols)
    (hwf : ∀ r ∈ df.rows, r.length = df.cols.length) :
    colValues (castColsToStr df ks) c = (colValues df c).map toStrVal := by
  simp only [colValues, castColsToStr, List.map_map]
  apply List.map_congr_left
  intro r hr
  have h1 : df.cols.indexOf c < df.cols.length :=
    List.indexOf_lt_length.mpr hcol
  have h2 : df.cols.indexOf c < r.length := by rw [hwf r hr]; exact h1
  have hgd : df.cols.getD (df.cols.indexOf c) "" = c := by
    rw [List.getD_eq_getElem?_getD, List.getElem?_eq_getElem h1,
      Option.getD_some]
    exact List.getElem_indexOf h1
  simp only [Function.comp_apply, getCell_castRowCols df.cols ks r _ h1 h2,
    hgd, contains_of_mem hc, if_true]

/-- The column read off a casted frame, statistical case: untouched. -/
theorem colValues_castColsToStr_not_mem (df : DataFrame) (ks : List String)
    (c : String) (hc : c ∉ ks) (hcol : c ∈ df.cols)
    (hwf : ∀ r ∈ df.rows, r.length = df.cols.length) :
    colValues (castColsToStr df ks) c = colValues df c := by
  simp only [colValues, castColsToStr, List.map_map]
  apply List.map_congr_left
  intro r hr
  have h1 : df.cols.indexOf c < df.cols.length :=
    List.indexOf_lt_length.mpr hcol
  have h2 : df.cols.indexOf c < r.length := by rw [hwf r hr]; exact h1
  have hgd : df.cols.getD (df.cols.indexOf c) "" = c := by
    rw [List.getD_eq_getElem?_getD, List.getElem?_eq_getElem h1,
      Option.getD_some]
    exact List.getElem_indexOf h1
  have hcont : ks.contains c = false := by
    rcases h : ks.contains c with _ | _
    · rfl
    · exact absurd (List.elem_iff.mp (by simpa [List.contains] using h)) hc
  simp only [Function.comp_apply, getCell_castRowCols df.cols ks r _ h1 h2,
    hgd, hcont, Bool.false_eq_true, if_false]

/-- C8: when `definere_klassifikasjonsvariable` returns, the caller's table
has every classification-variable column cast to text and every
statistical-variable column left untouched (values and hence dtypes
unchanged); columns are unchanged. -/
theorem C8_definere_casts_klass_columns (df : DataFrame) (answer : String)
    (kv sv : List String) (out : DataFrame)
    (hok : definere_klassifikasjonsvariable df answer = .ok (kv, sv, out))
    (hwf : ∀ r ∈ df.rows, r.length = df.cols.length) :
    out.cols = df.cols ∧
    (∀ c ∈ kv, colValues out c = (colValues df c).map toStrVal) ∧
    (∀ c ∈ sv, colValues out c = colValues df c) := by
  simp only [definere_klassifikasjonsvariable] at hok
  split at hok
  case isFalse => exact absurd hok (by simp)
  case isTrue hg =>
    have h := Except.ok.inj hok
    simp only [Prod.mk.injEq] at h
    obtain ⟨hkv, hsv, hout⟩ := h
    subst hkv
    refine ⟨by rw [← hout]; rfl, ?_, ?_⟩
    · intro c hc
      rw [← hout]
      exact colValues_castColsToStr_mem df _ c hc (hg c hc) hwf
    · intro c hc
      rw [← hsv] at hc
      have hnotin : c ∉ klassVars df.cols answer := by
        have h3 := List.of_mem_filter hc
        simp only [Bool.not_eq_true'] at h3
        intro hmem
        rw [contains_of_mem hmem] at h3
        exact absurd h3 (by decide)
      rw [← hout]
      exact colValues_castColsToStr_not_mem df _ c hnotin
        (List.mem_of_mem_filter hc) hwf

/-- A table with integer-typed identifier columns, for observing the
string-cast side effect. -/
def dfW8 : DataFrame :=
  ⟨["periode", "kommuneregion", "personer"],
   [[.vint 2025, .vint 301, .vint 7]]⟩

/-- Witness for C8: on a table with integer periode/kommuneregion columns
and an empty answer, the two classification columns come back text-cast
and the `personer` column untouched. -/
theorem C8_witness :
    (castColsToStr dfW8 ["periode", "kommuneregion"]).cols = dfW8.cols ∧
    (∀ c ∈ ["periode", "kommuneregion"],
      colValues (castColsToStr dfW8 ["periode", "kommuneregion"]) c =
        (colValues dfW8 c).map toStrVal) ∧
    (∀ c ∈ ["personer"],
      colValues (castColsToStr dfW8 ["periode", "kommuneregion"]) c =
        colValues dfW8 c) :=
  C8_definere_casts_klass_columns dfW8 "" ["periode", "kommuneregion"]
    ["personer"] (castColsToStr dfW8 ["periode", "kommuneregion"]) rfl
    (by decide)

/- ### Claim C6 -/

theorem zfill_eq_self {w : Nat} {s : String} (h : w ≤ s.length) :
    zfill w s = s := by
  rw [zfill, zfillList.eq_def, if_pos (show w ≤ s.data.length from h)]

theorem zfillList_four_ne :
    ∀ l : List Char, l ≠ ['9', '9', '9', '9'] →
      zfillList 4 l ≠ ['9', '9', '9', '9'] := by
  intro l h
  by_cases hl : 4 ≤ l.length
  · rw [zfillList.eq_def, if_pos hl]; exact h
  · rcases l with _ | ⟨c, rest⟩
    · decide
    · rw [zfillList.eq_def, if_neg hl]
      show (if c = '-' ∨ c = '+' then
          c :: (List.replicate (4 - (c :: rest).length) '0' ++ rest)
        else List.replicate (4 - (c :: rest).length) '0' ++ (c :: rest)) ≠
        ['9', '9', '9', '9']
      by_cases hc : c = '-' ∨ c = '+'
      · rw [if_pos hc]
        intro he
        injection he with h1 _
        rcases hc with hc | hc <;> rw [hc] at h1 <;> exact absurd h1 (by decide)
      · rw [if_neg hc]
        intro he
        have hlen : (c :: rest).length < 4 := Nat.lt_of_not_le hl
        have hpos : 0 < 4 - (c :: rest).length := by omega
        obtain ⟨m, hm⟩ :=
          Nat.exists_eq_succ_of_ne_zero (Nat.pos_iff_ne_zero.mp hpos)
        rw [hm, List.replicate_succ] at he
        injection he with h1 _
        exact absurd h1 (by decide)

theorem zfill_four_ne_9999 {s : String} (h : s ≠ "9999") :
    zfill 4 s ≠ "9999" := by
  intro he
  have hd : zfillList 4 s.data = ['9', '9', '9', '9'] := congrArg String.data he
  apply zfillList_four_ne s.data ?_ hd
  intro hdata
  apply h
  have h2 := congrArg String.mk hdata
  exact h2

theorem eka_ne_eak (u : String) : "EKA" ++ u ≠ "EAK" := by
  intro h
  have hd : 'E' :: 'K' :: 'A' :: u.data = ['E', 'A', 'K'] :=
    congrArg String.data h
  injection hd with _ h2
  injection h2 with h3 _
  exact absurd h3 (by decide)

theorem eka_ne_eakuo (u : String) : "EKA" ++ u ≠ "EAKUO" := by
  intro h
  have hd : 'E' :: 'K' :: 'A' :: u.data = ['E', 'A', 'K', 'U', 'O'] :=
    congrArg String.data h
  injection hd with _ h2
  injection h2 with h3 _
  exact absurd h3 (by decide)

/-- A registry snapshot with two municipalities, matching the repository's
own test of `mapping_fra_kommune_til_landet`. -/
def regListe : Registry :=
  { regEmpty with
    kommuner := ["0301", "5001"]
    kommFylkKorr := [("0301", "0300"), ("5001", "5000")]
    kommKostraKorr := [("0301", "K1"), ("5001", "K2")] }

/-- C6: in the municipality-to-nation mapping, for a registry whose code
list holds canonical (4-character, duplicate-free) codes and whose
KOSTRA-group correspondence does not use the reserved parent codes: the
sentinel "9999" never occurs as a `from` value; every code except the
sentinel gets exactly one "EAK" row; every code except the sentinel and
the capital "0301" gets exactly one "EAKUO" row; and "0301" gets no
"EAKUO" row. -/
theorem C6_kommune_til_landet_mapping_rows (reg : Registry)
    (hlen : ∀ k ∈ reg.kommuner, k.length = 4)
    (hnd : reg.kommuner.Nodup)
    (hkostra : ∀ p ∈ reg.kommKostraKorr, p.2 ≠ "EAK" ∧ p.2 ≠ "EAKUO") :
    (∀ p ∈ mapping_fra_kommune_til_landet reg, p.1 ≠ "9999") ∧
    (∀ k ∈ reg.kommuner, k ≠ "9999" →
      (mapping_fra_kommune_til_landet reg).countP
        (fun p => p.1 == k && p.2 == "EAK") = 1) ∧
    (∀ k ∈ reg.kommuner, k ≠ "9999" → k ≠ "0301" →
      (mapping_fra_kommune_til_landet reg).countP
        (fun p => p.1 == k && p.2 == "EAKUO") = 1) ∧
    (mapping_fra_kommune_til_landet reg).countP
      (fun p => p.1 == "0301" && p.2 == "EAKUO") = 0 := by
  have hzf : ∀ k ∈ reg.kommuner, zfill 4 k = k := fun k hk =>
    zfill_eq_self (le_of_eq (hlen k hk).symm)
  have hsplit : ∀ pr : String × String → Bool,
      (mapping_fra_kommune_til_landet reg).countP pr =
        (reg.kommFylkKorr.filter (fun p => p.1 != "9999")).countP
          (fun p => pr (zfill 4 p.1, "EKA" ++ p.2.take 2)) +
        (reg.kommKostraKorr.filter (fun p => p.1 != "9999")).countP
          (fun p => pr (zfill 4 p.1, p.2)) +
        (reg.kommuner.filter (fun c => c != "9999")).countP
          (fun c => pr (zfill 4 c, "EAK")) +
        (reg.kommuner.filter
            (fun c => !(c == "0301" || c == "9999"))).countP
          (fun c => pr (zfill 4 c, "EAKUO")) := by
    intro pr
    simp only [mapping_fra_kommune_til_landet, List.map_append, List.map_map,
      List.countP_append, List.countP_map]
    rfl
  refine ⟨?_, ?_, ?_, ?_⟩
  · intro p hp
    simp only [mapping_fra_kommune_til_landet] at hp
    rw [List.mem_map] at hp
    obtain ⟨q, hq, rfl⟩ := hp
    show zfill 4 q.1 ≠ "9999"
    apply zfill_four_ne_9999
    simp only [List.mem_append] at hq
    rcases hq with ((hq | hq) | hq) | hq
    · rw [List.mem_map] at hq
      obtain ⟨s, hs, rfl⟩ := hq
      have h2 := (List.mem_filter.mp hs).2
      simpa using h2
    · have h2 := (List.mem_filter.mp hq).2
      simpa using h2
    · rw [List.mem_map] at hq
      obtain ⟨k, hk, rfl⟩ := hq
      have h2 := (List.mem_filter.mp hk).2
      simpa using h2
    · rw [List.mem_map] at hq
      obtain ⟨k, hk, rfl⟩ := hq
      have h2 := (List.mem_filter.mp hk).2
      simp only [Bool.not_eq_true', Bool.or_eq_false_iff,
        beq_eq_false_iff_ne] at h2
      exact h2.2
  · intro k hk hk9
    rw [hsplit]
    have hA : (reg.kommFylkKorr.filter (fun p => p.1 != "9999")).countP
        (fun p => (zfill 4 p.1, "EKA" ++ p.2.take 2).1 == k &&
          (zfill 4 p.1, "EKA" ++ p.2.take 2).2 == "EAK") = 0 := by
      apply List.countP_eq_zero.mpr
      rintro p -
      simp only [Bool.and_eq_true, beq_iff_eq]
      rintro ⟨-, h2⟩
      exact eka_ne_eak _ h2
    have hB : (reg.kommKostraKorr.filter (fun p => p.1 != "9999")).countP
        (fun p => (zfill 4 p.1, p.2).1 == k &&
          (zfill 4 p.1, p.2).2 == "EAK") = 0 := by
      apply List.countP_eq_zero.mpr
      intro p hp
      simp only [Bool.and_eq_true, beq_iff_eq]
      rintro ⟨-, h2⟩
      exact (hkostra p (List.mem_of_mem_filter hp)).1 h2
    have hD : (reg.kommuner.filter
        (fun c => !(c == "0301" || c == "9999"))).countP
        (fun c => (zfill 4 c, "EAKUO").1 == k &&
          (zfill 4 c, "EAKUO").2 == "EAK") = 0 := by
      apply List.countP_eq_zero.mpr
      rintro c -
      simp only [Bool.and_eq_true, beq_iff_eq]
      rintro ⟨-, h2⟩
      exact absurd h2 (by decide)
    have hC : (reg.kommuner.filter (fun c => c != "9999")).countP
        (fun c => (zfill 4 c, "EAK").1 == k &&
          (zfill 4 c, "EAK").2 == "EAK") = 1 := by
      rw [List.countP_congr (q := fun c => c == k) ?_]
      · rw [← List.count_eq_countP]
        exact List.count_eq_one_of_mem (hnd.filter _)
          (List.mem_filter.mpr ⟨hk, by simpa using hk9⟩)
      · intro c hc
        have hc' := List.mem_of_mem_filter hc
        simp only [Bool.and_eq_true, beq_iff_eq]
        rw [hzf c hc']
        simp
    rw [hA, hB, hC, hD]
  · intro k hk hk9 hk0
    rw [hsplit]
    have hA : (reg.kommFylkKorr.filter (fun p => p.1 != "9999")).countP
        (fun p => (zfill 4 p.1, "EKA" ++ p.2.take 2).1 == k &&
          (zfill 4 p.1, "EKA" ++ p.2.take 2).2 == "EAKUO") = 0 := by
      apply List.countP_eq_zero.mpr
      rintro p -
      simp only [Bool.and_eq_true, beq_iff_eq]
      rintro ⟨-, h2⟩
      exact eka_ne_eakuo _ h2
    have hB : (reg.kommKostraKorr.filter (fun p => p.1 != "9999")).countP
        (fun p => (zfill 4 p.1, p.2).1 == k &&
          (zfill 4 p.1, p.2).2 == "EAKUO") = 0 := by
      apply List.countP_eq_zero.mpr
      intro p hp
      simp only [Bool.and_eq_true, beq_iff_eq]
      rintro ⟨-, h2⟩
      exact (hkostra p (List.mem_of_mem_filter hp)).2 h2
    have hC : (reg.kommuner.filter (fun c => c != "9999")).countP
        (fun c => (zfill 4 c, "EAK").1 == k &&
          (zfill 4 c, "EAK").2 == "EAKUO") = 0 := by
      apply List.countP_eq_zero.mpr
      rintro c -
      simp only [Bool.and_eq_true, beq_iff_eq]
      rintro ⟨-, h2⟩
      exact absurd h2 (by decide)
    have hD : (reg.kommuner.filter
        (fun c => !(c == "0301" || c == "9999"))).countP
        (fun c => (zfill 4 c, "EAKUO").1 == k &&
          (zfill 4 c, "EAKUO").2 == "EAKUO") = 1 := by
      rw [List.countP_congr (q := fun c => c == k) ?_]
      · rw [← List.count_eq_countP]
        refine List.count_eq_one_of_mem (hnd.filter _)
          (List.mem_filter.mpr ⟨hk, ?_⟩)
        simp only [Bool.not_eq_true', Bool.or_eq_false_iff,
          beq_eq_false_iff_ne]
        exact ⟨hk0, hk9⟩
      · intro c hc
        have hc' := List.mem_of_mem_filter hc
        simp only [Bool.and_eq_true, beq_iff_eq]
        rw [hzf c hc']
        simp
    rw [hA, hB, hC, hD]
  · rw [hsplit]
    have hA : (reg.kommFylkKorr.filter (fun p => p.1 != "9999")).countP
        (fun p => (zfill 4 p.1, "EKA" ++ p.2.take 2).1 == "0301" &&
          (zfill 4 p.1, "EKA" ++ p.2.take 2).2 == "EAKUO") = 0 := by
      apply List.countP_eq_zero.mpr
      rintro p -
      simp only [Bool.and_eq_true, beq_iff_eq]
      rintro ⟨-, h2⟩
      exact eka_ne_eakuo _ h2
    have hB : (reg.kommKostraKorr.filter (fun p => p.1 != "9999")).countP
        (fun p => (zfill 4 p.1, p.2).1 == "0301" &&
          (zfill 4 p.1, p.2).2 == "EAKUO") = 0 := by
      apply List.countP_eq_zero.mpr
      intro p hp
      simp only [Bool.and_eq_true, beq_iff_eq]
      rintro ⟨-, h2⟩
      exact (hkostra p (List.mem_of_mem_filter hp)).2 h2
    have hC : (reg.kommuner.filter (fun c => c != "9999")).countP
        (fun c => (zfill 4 c, "EAK").1 == "0301" &&
          (zfill 4 c, "EAK").2 == "EAKUO") = 0 := by
      apply List.countP_eq_zero.mpr
      rintro c -
      simp only [Bool.and_eq_true, beq_iff_eq]
      rintro ⟨-, h2⟩
      exact absurd h2 (by decide)
    have hD : (reg.kommuner.filter
        (fun c => !(c == "0301" || c == "9999"))).countP
        (fun c => (zfill 4 c, "EAKUO").1 == "0301" &&
          (zfill 4 c, "EAKUO").2 == "EAKUO") = 0 := by
      apply List.countP_eq_zero.mpr
      intro c hc
      have hc2 := (List.mem_filter.mp hc).2
      simp only [Bool.not_eq_true', Bool.or_eq_false_iff,
        beq_eq_false_iff_ne] at hc2
      simp only [Bool.and_eq_true, beq_iff_eq]
      rintro ⟨h1, -⟩
      rw [hzf c (List.mem_of_mem_filter hc)] at h1
      exact hc2.1 h1
    rw [hA, hB, hC, hD]

/-- Witness for C6: on the repository test's registry snapshot, 5001 gets
exactly one "EAK" row and one "EAKUO" row, and Oslo (0301) gets no
"EAKUO" row. -/
theorem C6_witness :
    (mapping_fra_kommune_til_landet regListe).countP
      (fun p => p.1 == "5001" && p.2 == "EAK") = 1 ∧
    (mapping_fra_kommune_til_landet regListe).countP
      (fun p => p.1 == "5001" && p.2 == "EAKUO") = 1 ∧
    (mapping_fra_kommune_til_landet regListe).countP
      (fun p => p.1 == "0301" && p.2 == "EAKUO") = 0 := by
  have h := C6_kommune_til_landet_mapping_rows regListe (by decide)
    (by decide) (by decide)
  exact ⟨h.2.1 "5001" (by decide) (by decide),
    h.2.2.1 "5001" (by decide) (by decide) (by decide), h.2.2.2⟩

/- ### Claim C1 -/

theorem renameCols_nil (df : DataFrame) : renameCols df [] = df := by
  simp [renameCols]

theorem postprocess_none (df : DataFrame) (kv : List String) :
    _postprocess_combined df none [] kv = castColsToStr df kv := by
  simp only [_postprocess_combined]
  exact renameCols_nil _

theorem cast_concat_cast (a b : DataFrame) (ks : List String) :
    castColsToStr (concatFrames (castColsToStr a ks) b) ks =
      ⟨a.cols, (castColsToStr a ks).rows ++
        (b.rows.map (alignRow b.cols a.cols)).map (castRowCols a.cols ks)⟩ := by
  simp only [castColsToStr, concatFrames, List.map_append, List.map_map]
  congr 1
  have hid : List.map (castRowCols a.cols ks ∘ castRowCols a.cols ks) a.rows =
      List.map (castRowCols a.cols ks) a.rows :=
    List.map_congr_left (fun r _ => by
      simp only [Function.comp_apply]
      exact castRowCols_idem _ _ _)
  rw [hid]

theorem length_orderedInsertB {α : Type} (le : α → α → Bool) (a : α)
    (l : List α) : (orderedInsertB le a l).length = l.length + 1 := by
  induction l with
  | nil => rfl
  | cons b t ih =>
    rw [orderedInsertB]
    cases h : le a b <;> simp [h, ih]

theorem length_insertionSortB {α : Type} (le : α → α → Bool) (l : List α) :
    (insertionSortB le l).length = l.length := by
  induction l with
  | nil => rfl
  | cons b t ih =>
    rw [insertionSortB, length_orderedInsertB, ih]
    rfl

theorem groupbySum_length (df : DataFrame) (kv sv : List String) :
    (groupbySum df kv sv).rows.length = distinctKeyCount df kv := by
  simp [groupbySum, distinctKeyCount, length_insertionSortB]

/-- C1 (amended): for every single-region-column table with a unique
period, the successful run concatenates the normalized original rows with
one aggregated row per distinct classification-key combination of the
inner join, and then applies the optional post-merge filter TO THE
COMBINED TABLE: under the three aggregation types that carry no
post-filter the output is exactly the original (normalized) rows followed
by the aggregated rows, so no original row is removed; under
`kommune_til_fylkeskommune` the filter also removes original rows whose
region code does not end in "00" (see the counterexample). -/
theorem C1_hierarki_originals_and_aggregates (reg : Registry)
    (answer : String) (df : DataFrame) (aggregeringstype : Option String)
    (rc : String)
    (hper : "periode" ∈ df.cols)
    (hnu : ¬ 1 < nuniqueCol df "periode")
    (hne : df.rows ≠ [])
    (hrc : regionColsOf df = [rc])
    (hres : resolveAggType aggregeringstype rc ∈ valid_by_region rc)
    (hnof : resolveAggType aggregeringstype rc ≠ "kommune_til_fylkeskommune")
    (hans : ∀ x ∈ parseAnswer answer, x ∈ df.cols)
    (_hfrom : "from" ∉ df.cols) (_hto : "to" ∉ df.cols) :
    ∃ (mapping : List (String × String)) (aggRows : List (List Val)),
      _select_mapping reg aggregeringstype rc =
        .ok (mapping, rc, rc, none, []) ∧
      hierarki reg answer df aggregeringstype =
        .ok ⟨df.cols, (hierarkiOriginals df rc answer).rows ++ aggRows⟩ ∧
      aggRows.length =
        distinctKeyCount (hierarkiMerged df rc rc rc mapping)
          (klassVars df.cols answer) ∧
      (hierarkiOriginals df rc answer).rows.length = df.rows.length ∧
      ∀ r ∈ (hierarkiOriginals df rc answer).rows,
        r ∈ (hierarkiOriginals df rc answer).rows ++ aggRows := by
  have hsel : ∃ mapping, _select_mapping reg aggregeringstype rc =
      .ok (mapping, rc, rc, none, []) := by
    rcases regionCol_mem_probe hrc with h | h | h <;> subst h
    · have hres2 : resolveAggType aggregeringstype "kommuneregion" =
          "kommune_til_landet" := by
        rcases (by simpa [valid_by_region] using hres :
            resolveAggType aggregeringstype "kommuneregion" =
              "kommune_til_landet" ∨
            resolveAggType aggregeringstype "kommuneregion" =
              "kommune_til_fylkeskommune") with h1 | h1
        · exact h1
        · exact absurd h1 hnof
      refine ⟨mapping_fra_kommune_til_landet reg, ?_⟩
      simp only [_select_mapping, hres2]
      rfl
    · have hres2 : resolveAggType aggregeringstype "fylkesregion" =
          "fylkeskommune_til_kostraregion" := by
        simpa [valid_by_region] using hres
      refine ⟨mapping_fra_fylkeskommune_til_kostraregion reg, ?_⟩
      simp only [_select_mapping, hres2]
      rfl
    · have hres2 : resolveAggType aggregeringstype "bydelsregion" =
          "bydeler_til_EAB" := by
        simpa [valid_by_region] using hres
      refine ⟨mapping_bydeler_oslo reg, ?_⟩
      simp only [_select_mapping, hres2]
      rfl
  obtain ⟨mapping, hsel⟩ := hsel
  have hsub : ∀ c ∈ klassVars (hierarkiNormCopy df rc).cols answer,
      c ∈ (hierarkiNormCopy df rc).cols := klassVars_subset_cols hans
  have hdef : definere_klassifikasjonsvariable (hierarkiNormCopy df rc)
      answer =
      .ok (klassVars df.cols answer, statVars df.cols answer,
        castColsToStr (hierarkiNormCopy df rc)
          (klassVars df.cols answer)) := by
    simp only [definere_klassifikasjonsvariable]
    rw [if_pos hsub]
    rfl
  refine ⟨mapping,
    ((groupbySum (hierarkiMerged df rc rc rc mapping)
        (klassVars df.cols answer) (statVars df.cols answer)).rows.map
      (alignRow (klassVars df.cols answer ++ statVars df.cols answer)
        df.cols)).map (castRowCols df.cols (klassVars df.cols answer)),
    hsel, ?_, ?_, ?_, fun r hr => List.mem_append_left _ hr⟩
  · rw [hierarki_run reg answer df aggregeringstype rc hper hnu hne hrc]
    simp only [hierarkiStage2, hsel, hdef]
    rw [postprocess_none, cast_concat_cast]
    rfl
  · simp only [List.length_map]
    exact groupbySum_length _ _ _
  · simp only [hierarkiOriginals, castColsToStr, hierarkiNormCopy,
      mapColVals, List.length_map]

/-- Counterexample to C1 as stated: under the
`kommune_til_fylkeskommune` override the post-merge filter runs on the
combined table, so the two original municipality rows (codes 0301 and
5001, not ending in "00") are removed from the output — the output holds
only the two aggregated county-municipality rows.  The repository's own
test asserts exactly this filtered output. -/
theorem C1_counterexample_postfilter_drops_originals :
    hierarki regFylkeskomm "" dfToKommuner
        (some "kommune_til_fylkeskommune") =
      .ok ⟨["periode", "fylkesregion", "personer"],
        [[.vstr "2025", .vstr "0300", .vint 10],
         [.vstr "2025", .vstr "5000", .vint 20]]⟩ ∧
    [Val.vstr "2025", Val.vstr "0301", Val.vint 10] ∈
      (hierarkiOriginals dfToKommuner "kommuneregion" "").rows ∧
    [Val.vstr "2025", Val.vstr "0301", Val.vint 10] ∉
      [[Val.vstr "2025", Val.vstr "0300", Val.vint 10],
       [Val.vstr "2025", Val.vstr "5000", Val.vint 20]] := by
  refine ⟨by decide, by decide, by decide⟩

/-- Witness for C1: the spec's end-to-end scenario (two Oslo rows, default
municipality hierarchy, mapping 0301 → "EAK") runs through the amended
theorem: output = the two normalized originals followed by the aggregated
rows, one per distinct key combination. -/
theorem C1_witness :
    ∃ (mapping : List (String × String)) (aggRows : List (List Val)),
      _select_mapping regOslo none "kommuneregion" =
        .ok (mapping, "kommuneregion", "kommuneregion", none, []) ∧
      hierarki regOslo "" dfOslo none =
        .ok ⟨dfOslo.cols,
          (hierarkiOriginals dfOslo "kommuneregion" "").rows ++ aggRows⟩ ∧
      aggRows.length =
        distinctKeyCount (hierarkiMerged dfOslo "kommuneregion"
          "kommuneregion" "kommuneregion" mapping)
          (klassVars dfOslo.cols "") ∧
      (hierarkiOriginals dfOslo "kommuneregion" "").rows.length =
        dfOslo.rows.length ∧
      ∀ r ∈ (hierarkiOriginals dfOslo "kommuneregion" "").rows,
        r ∈ (hierarkiOriginals dfOslo "kommuneregion" "").rows ++ aggRows :=
  C1_hierarki_originals_and_aggregates regOslo "" dfOslo none
    "kommuneregion" (by decide) (by decide) (by decide) (by decide)
    (by decide) (by decide) (by decide) (by decide) (by decide)

end SsbKostra
